import Mathlib

/-!
Verification development for the BioX repository (package `bioxai`).

The Python sources under `src/src/bioxai` are shallowly embedded here:

* filenames and paths are `List Char` (Python `str`),
* `pathlib.Path.stem` / `.suffix` / `.name` / `.parent` and
  `str.removesuffix` / `str.endswith` / `str.startswith` are modelled
  character-exactly from their CPython definitions,
* filesystem state visible to the code (existence, directory-ness, stat
  results, symlink resolution) is an explicit value threaded through the
  embedded functions; a failing `stat` is `Option.none`,
* Python exceptions are `Except PyExn`,
* `list.sort(key=..., reverse=...)` is a stable ascending sort on the
  keys, with `reverse=True` modelled as CPython implements it (reverse
  the list, sort ascending, reverse again).
-/

/-- Python exceptions that the embedded code can raise. -/
inductive PyExn where
  | fileNotFoundError
  | notADirectoryError
  | valueError
  | typeError
  | indexError
  | moduleNotFoundError
deriving DecidableEq, Repr

instance {ε α : Type} [DecidableEq ε] [DecidableEq α] : DecidableEq (Except ε α) := fun a b =>
  match a, b with
  | .ok x, .ok y => decidable_of_iff (x = y) (by simp)
  | .error x, .error y => decidable_of_iff (x = y) (by simp)
  | .ok _, .error _ => isFalse (by simp)
  | .error _, .ok _ => isFalse (by simp)

/-- Decimal digit test, `\d` of the regexes in `files_finder.py`
(ASCII range, which is what the filenames in question use). -/
def isDigitChar (c : Char) : Bool := '0' ≤ c && c ≤ '9'

/-- Python `s.startswith(t)`. -/
def pyStartsWith (s t : List Char) : Bool := t.isPrefixOf s

/-- Python `s.endswith(t)`. -/
def pyEndsWith (s t : List Char) : Bool := t.isSuffixOf s

/-- Python `s.removesuffix(suf)`: drop `suf` from the end when `suf` is
nonempty and `s` ends with it, otherwise return `s` unchanged. -/
def removesuffix (s suf : List Char) : List Char :=
  if suf ≠ [] ∧ suf.isSuffixOf s then s.take (s.length - suf.length) else s

/-- Split a list at the LAST occurrence of `sep`: `some (before, after)`
with the separator itself dropped, or `none` when `sep` does not occur. -/
def splitLast (sep : Char) : List Char → Option (List Char × List Char)
  | [] => none
  | c :: cs =>
    match splitLast sep cs with
    | some (b, a) => some (c :: b, a)
    | none => if c = sep then some ([], cs) else none

/-- `pathlib.PurePath` suffix/stem pair of a filename: CPython takes
`i = name.rfind('.')` and returns `(name[:i], name[i:])` when
`0 < i < len(name) - 1`, else `(name, '')`. -/
def pySplitExt (name : List Char) : List Char × List Char :=
  match splitLast '.' name with
  | some (b, a) => if b ≠ [] ∧ a ≠ [] then (b, '.' :: a) else (name, [])
  | none => (name, [])

/-- `Path(name).stem` for a filename `name` (no directory separators). -/
def pyStem (name : List Char) : List Char := (pySplitExt name).1

/-- `Path(name).suffix` for a filename `name`. -/
def pySuffix (name : List Char) : List Char := (pySplitExt name).2

/-- First disjunct of the suffix check in `_prefix_suffix_ok`
(`files_finder.py` line 31): `stem.endswith(suffix)`. -/
def stemCheck (name sfx : List Char) : Bool := pyEndsWith (pyStem name) sfx

/-- Second disjunct of the suffix check in `_prefix_suffix_ok`
(`files_finder.py` lines 30-31): `name.removesuffix(p.suffix).endswith(suffix)`. -/
def baseNoExtCheck (name sfx : List Char) : Bool :=
  pyEndsWith (removesuffix name (pySuffix name)) sfx

/-- Shell-style glob matching, fuel-indexed so that it is structurally
recursive (every recursive call shortens the pattern or the string, so
`pat.length + s.length + 1` fuel always suffices and the `0` case is
unreachable from `globMatch`). -/
def globMatchAux : Nat → List Char → List Char → Bool
  | 0, _, _ => false
  | _ + 1, [], [] => true
  | _ + 1, [], _ :: _ => false
  | n + 1, '*' :: ps, [] => globMatchAux n ps []
  | n + 1, '*' :: ps, c :: cs =>
    globMatchAux n ps (c :: cs) || globMatchAux n ('*' :: ps) cs
  | n + 1, '?' :: ps, _ :: cs => globMatchAux n ps cs
  | _ + 1, '?' :: _, [] => false
  | n + 1, p :: ps, c :: cs => p == c && globMatchAux n ps cs
  | _ + 1, _ :: _, [] => false

/-- Shell-style glob matching of `fnmatch`: `*` matches any run of
characters, `?` any single character, all other characters literally.
Bracket character classes are not used by anything in this repository and
are not modelled (`[` matches itself). -/
def globMatch (pat s : List Char) : Bool :=
  globMatchAux (pat.length + s.length + 1) pat s

/-- Python `fnmatch.fnmatch(name, pat)` (POSIX: no case normalization). -/
def fnmatch (name pat : List Char) : Bool := globMatch pat name

/-- ASCII lower-casing, `str.lower()` for the names in question. -/
def lowerStr (s : List Char) : List Char := s.map Char.toLower

/-- Values returned by the key function of `_build_sort_key`: a filename
string (mode `name`), a numeric stat value (modes `mtime`/`size`), or
`float('inf')` when the stat raised `OSError`. -/
inductive SortKey where
  | str (s : List Char)
  | num (n : Nat)
  | inf
deriving DecidableEq, Repr

/-- Lexicographic string comparison, Python `<=` on `str`. -/
def lexLE : List Char → List Char → Bool
  | [], _ => true
  | _ :: _, [] => false
  | a :: as, b :: bs => if a < b then true else if a = b then lexLE as bs else false

/-- Ordering on sort keys. Numeric keys compare numerically with
`float('inf')` greater than every number; string keys compare
lexicographically (a single sort only ever compares keys of one kind). -/
def keyLE : SortKey → SortKey → Bool
  | .str a, .str b => lexLE a b
  | .str _, _ => true
  | _, .str _ => false
  | .num a, .num b => a ≤ b
  | .num _, .inf => true
  | .inf, .num _ => false
  | .inf, .inf => true

/-- One regular file as seen by the discovery engine: its basename as
enumerated by `glob`, the basename of its `resolve()`d canonical path
(different when the enumerated path is a symlink with another target
name), and its stat results (`none` models a raised `OSError`). -/
structure FileEntry where
  name : List Char
  resolvedName : List Char
  size : Option Nat
  mtime : Option Nat
deriving DecidableEq, Repr

/-- `Path(p).resolve()`: the canonical entry, whose `name` is the
resolved basename (resolution is idempotent). -/
def resolveEntry (e : FileEntry) : FileEntry :=
  { e with name := e.resolvedName }

/-- The key function returned by `_build_sort_key(sort_by)` in
`files_finder.py` lines 97-111: `p.name` for `name`, `st_mtime` for
`mtime`, `st_size` otherwise, with `OSError` mapped to `float('inf')`. -/
def _build_sort_key (sort_by : String) (p : FileEntry) : SortKey :=
  if sort_by = "name" then .str p.name
  else if sort_by = "mtime" then
    match p.mtime with
    | some t => .num t
    | none => .inf
  else
    match p.size with
    | some s => .num s
    | none => .inf

/-- Python `list.sort(key=key, reverse=reverse)`: a stable ascending sort
on the keys, modelled by insertion sort — a stable sort by a total
preorder is extensionally unique, so this agrees with CPython's timsort
on every input. CPython implements `reverse=True` by reversing the list
both before and after the ascending sort. -/
def pySort {α : Type} (key : α → SortKey) (reverse : Bool) (l : List α) : List α :=
  if reverse then
    (l.reverse.insertionSort (fun a b => keyLE (key a) (key b) = true)).reverse
  else l.insertionSort (fun a b => keyLE (key a) (key b) = true)

/-- Value of an `include_patterns`/`exclude_patterns` argument as it may
actually arrive at `find_files` in Python: absent, a bare string, or a
list of pattern strings. Iterating a bare string yields its characters
as one-character strings. -/
inductive PyPatterns where
  | absent
  | str (s : List Char)
  | list (l : List (List Char))
deriving DecidableEq, Repr

/-- What a `for pat in x` loop sees: characters of a bare string (each a
one-character string), or the elements of a list. -/
def PyPatterns.iter : PyPatterns → List (List Char)
  | .absent => []
  | .str s => s.map (fun c => [c])
  | .list l => l

/-- Python truthiness of the argument: `None` and empty containers are
falsy. -/
def PyPatterns.truthy : PyPatterns → Bool
  | .absent => false
  | .str s => !s.isEmpty
  | .list l => !l.isEmpty

/-- `_ext_ok` from `files_finder.py` lines 17-20:
`p.suffix.lower() == f".\x7bfile_format.lower()\x7d"` unless the format is `None`. -/
def _ext_ok (p : FileEntry) (file_format : Option (List Char)) : Bool :=
  match file_format with
  | none => true
  | some fmt => lowerStr (pySuffix p.name) == '.' :: lowerStr fmt

/-- `_prefix_suffix_ok` from `files_finder.py` lines 23-31 (`pre` is the
source's `prefix` parameter): the name must start with `pre` when given;
the suffix check passes when the stem, or the name with its final
extension removed, ends with `suf`. -/
def _prefix_suffix_ok (p : FileEntry) (pre suf : Option (List Char)) : Bool :=
  let name := p.name
  let stem := pyStem name
  if pre.isSome && !(pyStartsWith name (pre.getD [])) then false
  else
    match suf with
    | none => true
    | some s =>
      let base_no_ext := removesuffix name (pySuffix name)
      pyEndsWith stem s || pyEndsWith base_no_ext s

/-- `_patterns_ok` from `files_finder.py` lines 34-41: when the include
argument is truthy the basename must `fnmatch` at least one iterated
pattern; when the exclude argument is truthy it must match none. -/
def _patterns_ok (name : List Char) (inc exc : PyPatterns) : Bool :=
  if inc.truthy && !(inc.iter.any fun pat => fnmatch name pat) then false
  else if exc.truthy && (exc.iter.any fun pat => fnmatch name pat) then false
  else true

/-- `_size_ok` from `files_finder.py` lines 44-50: pass without a bound;
otherwise `p.stat().st_size >= min_size_bytes`, and `False` when the stat
raises `OSError`. -/
def _size_ok (p : FileEntry) (min_size_bytes : Option Nat) : Bool :=
  match min_size_bytes with
  | none => true
  | some m =>
    match p.size with
    | some s => m ≤ s
    | none => false

/-- Arguments of `find_files` (`files_finder.py` lines 120-132); `pre`
models the source's `prefix` parameter. `max_files` is an `Int` because
Python accepts and checks negative values. -/
structure FindArgs where
  pre : Option (List Char) := none
  suffix : Option (List Char) := none
  file_format : Option (List Char) := none
  recursive : Bool := false
  include_patterns : PyPatterns := .absent
  exclude_patterns : PyPatterns := .absent
  min_size_bytes : Option Nat := none
  max_files : Option Int := none
  sort_by : String := "name"
  reverse : Bool := false
deriving DecidableEq, Repr

/-- `_file_passes` from `files_finder.py` lines 53-69: the conjunction of
the four predicates, in source order. -/
def _file_passes (p : FileEntry) (a : FindArgs) : Bool :=
  _ext_ok p a.file_format && _prefix_suffix_ok p a.pre a.suffix &&
    _patterns_ok p.name a.include_patterns a.exclude_patterns &&
    _size_ok p a.min_size_bytes

/-- Numeric value of a digit character. -/
def charVal (c : Char) : Nat := c.toNat - '0'.toNat

/-- Capture of `\d\x7b4\x7d` anchored at the start of `s`: the first four
characters must be digits, and they are read as a number (a fifth digit
may follow; the regex consumes exactly four). -/
def take4Digits : List Char → Option Nat
  | a :: b :: c :: d :: _ =>
    if isDigitChar a && isDigitChar b && isDigitChar c && isDigitChar d then
      some (charVal a * 1000 + charVal b * 100 + charVal c * 10 + charVal d)
    else none
  | _ => none

/-- Match a literal anchored at the start of `s`, returning the rest. -/
def anchoredLit (lit s : List Char) : Option (List Char) :=
  if lit.isPrefixOf s then some (s.drop lit.length) else none

/-- Anchored match of the regex `pubmed_sorted_(?P<year>\d\x7b4\x7d)`. -/
def matchPubmedSorted (s : List Char) : Option Nat :=
  (anchoredLit "pubmed_sorted_".toList s).bind take4Digits

/-- Anchored match of the regex `pubmed_(?P<year>\d\x7b4\x7d)`. -/
def matchPubmed (s : List Char) : Option Nat :=
  (anchoredLit "pubmed_".toList s).bind take4Digits

/-- Anchored match of the regex `(?P<year>19\d\x7b2\x7d|20\d\x7b2\x7d)`. -/
def matchBareYear : List Char → Option Nat
  | a :: b :: c :: d :: _ =>
    if ((a = '1' && b = '9') || (a = '2' && b = '0')) && isDigitChar c && isDigitChar d then
      some (charVal a * 1000 + charVal b * 100 + charVal c * 10 + charVal d)
    else none
  | _ => none

/-- `re.search`: try the anchored matcher at every start position from
the left, returning the leftmost match's capture. -/
def reSearch (m : List Char → Option Nat) : List Char → Option Nat
  | [] => m []
  | s@(_ :: rest) => (m s).orElse fun _ => reSearch m rest

/-- The valid-year range check `1900 <= y <= 2099` of
`_extract_year_from_filename`. -/
def yearInRange (y : Nat) : Bool := 1900 ≤ y && y ≤ 2099

/-- The pattern loop of `_extract_year_from_filename` (`files_finder.py`
lines 81-93): search each pattern in order; on a match whose captured
number is in range return it, otherwise continue with the next pattern. -/
def tryPatterns : List (List Char → Option Nat) → List Char → Option Nat
  | [], _ => none
  | m :: ms, name =>
    match reSearch m name with
    | some y => if yearInRange y then some y else tryPatterns ms name
    | none => tryPatterns ms name

/-- `_extract_year_from_filename` from `files_finder.py` lines 72-94. -/
def _extract_year_from_filename (name : List Char) : Option Nat :=
  tryPatterns [matchPubmedSorted, matchPubmed, matchBareYear] name

/-- Keep an optional captured year only when it lies in `[1900, 2099]`. -/
def inRangeFilter (o : Option Nat) : Option Nat :=
  o.bind fun y => if yearInRange y then some y else none

/-- The distinct years extracted from a file list, ascending — the key
set of the `defaultdict` of `sort_files_by_year` after the final
`sorted(buckets.items())`. -/
def yearsOf (files : List FileEntry) : List Nat :=
  ((files.filterMap fun f => _extract_year_from_filename f.name).dedup).insertionSort (· ≤ ·)

/-- `sort_files_by_year` from `files_finder.py` lines 218-250: validate
the sort mode, bucket the files by extracted year (dropping files with
no extractable year), sort each bucket with `_build_sort_key(sort_by)`
ascending, and return the buckets in ascending year order. -/
def sort_files_by_year (files : List FileEntry) (sort_by : String) :
    Except PyExn (List (Nat × List FileEntry)) :=
  if ¬(sort_by = "name" ∨ sort_by = "mtime" ∨ sort_by = "size") then .error .valueError
  else
    .ok ((yearsOf files).map fun y =>
      (y, pySort (_build_sort_key sort_by) false
        (files.filter fun f => _extract_year_from_filename f.name == some y)))

/-- The Python import environment: whether a module `vectorsage_data.utils`
(the import target of `FindFilesResult.group_by_year`) can be resolved.
The repository itself ships only the package `bioxai`, so in the shipped
state this is `false`; when the module is available, its
`sort_files_by_year` is taken to be the repository's own function of
that name in `files_finder.py` (the "shared utility" the docstring of
`group_by_year` refers to). -/
structure PyModules where
  hasVectorsageDataUtils : Bool
deriving DecidableEq, Repr

/-- The module environment of the repository as shipped: there is no
`vectorsage_data` package anywhere in the source tree. -/
def repoModules : PyModules := ⟨false⟩

/-- Normalization of a pattern argument in `FindFilesArgs.__post_init__`
(`data_model.py` lines 36-39): a non-`None` non-list value `x` is
replaced by `[str(x)]`. -/
def post_init_patterns : PyPatterns → PyPatterns
  | .str s => .list [s]
  | p => p

/-- Normalization of `file_format` in `FindFilesArgs.__post_init__`
(`data_model.py` lines 33-35): a truthy format string has its leading
dots stripped (`lstrip(".")`). -/
def post_init_file_format : Option (List Char) → Option (List Char)
  | none => none
  | some f => if f.isEmpty then some f else some (f.dropWhile (· = '.'))

/-- `FindFilesArgs.__post_init__` from `data_model.py` lines 26-39:
validate `sort_by`, sanitize `file_format`, and normalize single-value
pattern arguments into one-element lists. -/
def findFilesArgsPostInit (a : FindArgs) : Except PyExn FindArgs :=
  if ¬(a.sort_by = "name" ∨ a.sort_by = "mtime" ∨ a.sort_by = "size") then .error .valueError
  else
    .ok { a with
      file_format := post_init_file_format a.file_format,
      include_patterns := post_init_patterns a.include_patterns,
      exclude_patterns := post_init_patterns a.exclude_patterns }

/-- `FindFilesResult` from `data_model.py` lines 57-92. `db_file_paths`
is whatever `__post_init__` stored. -/
structure FindFilesResult where
  searched_dir : List Char
  args : FindArgs
  files : List FileEntry
  total_matched : Nat
  recursive : Bool
  notes : Option (List Char)
  db_file_paths : List (Nat × List FileEntry)
deriving DecidableEq, Repr

/-- Construction of a `FindFilesResult`, including its `__post_init__`,
which calls `self.group_by_year()`; that method's body first executes
`from vectorsage_data.utils import sort_files_by_year`, so when the
module environment cannot resolve `vectorsage_data.utils` the
construction raises `ModuleNotFoundError`; otherwise `db_file_paths`
becomes `sort_files_by_year(self.files, sort_by="name")`. -/
def mkFindFilesResult (env : PyModules) (searched_dir : List Char) (args : FindArgs)
    (files : List FileEntry) (total_matched : Nat) (recursive : Bool)
    (notes : Option (List Char)) : Except PyExn FindFilesResult :=
  if env.hasVectorsageDataUtils then
    match sort_files_by_year files "name" with
    | .ok buckets =>
      .ok ⟨searched_dir, args, files, total_matched, recursive, notes, buckets⟩
    | .error e => .error e
  else .error .moduleNotFoundError

/-- The filesystem as `find_files` observes it: whether the root exists
and is a directory, and the regular files produced by `base.glob("*")`
(non-recursive) or `base.glob("**/*")` (recursive). -/
structure PyFS where
  rootExists : Bool
  rootIsDir : Bool
  flatEntries : List FileEntry
  recEntries : List FileEntry
deriving DecidableEq, Repr

/-- The candidate enumeration of `find_files` (`files_finder.py` lines
166-167). -/
def find_files_candidates (fs : PyFS) (recursive : Bool) : List FileEntry :=
  if recursive then fs.recEntries else fs.flatEntries

/-- The filter-and-resolve step of `find_files` (`files_finder.py` lines
169-181): keep candidates passing `_file_passes`, then resolve each to
its canonical path. -/
def find_files_filtered (fs : PyFS) (a : FindArgs) : List FileEntry :=
  ((find_files_candidates fs a.recursive).filter fun p => _file_passes p a).map resolveEntry

/-- The sorting step of `find_files` (`files_finder.py` line 185). -/
def find_files_sorted (fs : PyFS) (a : FindArgs) : List FileEntry :=
  pySort (_build_sort_key a.sort_by) a.reverse (find_files_filtered fs a)

/-- The truncation step of `find_files` (`files_finder.py` lines 187-188):
`filtered[:max_files]` when `max_files` is given and non-negative. -/
def find_files_files (fs : PyFS) (a : FindArgs) : List FileEntry :=
  match a.max_files with
  | some m => if 0 ≤ m then (find_files_sorted fs a).take m.toNat else find_files_sorted fs a
  | none => find_files_sorted fs a

/-- `find_files` from `files_finder.py` lines 120-215, in source order:
existence and directory checks, candidate enumeration, filtering and
resolution, `_validate_sort_by`, sort, truncation, `FindFilesArgs`
construction (with its `__post_init__`), and `FindFilesResult`
construction (with its `__post_init__`). The second component records
whether enumeration of the root directory occurred before returning. -/
def find_files (fs : PyFS) (env : PyModules) (dir : List Char) (a : FindArgs) :
    Except PyExn FindFilesResult × Bool :=
  if ¬fs.rootExists then (.error .fileNotFoundError, false)
  else if ¬fs.rootIsDir then (.error .notADirectoryError, false)
  else
    if ¬(a.sort_by = "name" ∨ a.sort_by = "mtime" ∨ a.sort_by = "size") then
      (.error .valueError, true)
    else
      let files := find_files_files fs a
      match findFilesArgsPostInit a with
      | .error e => (.error e, true)
      | .ok args_obj =>
        (mkFindFilesResult env dir args_obj files files.length a.recursive none, true)

/-- Basename of a path string: the part after the last `/`. -/
def basename (p : List Char) : List Char :=
  match splitLast '/' p with
  | some (_, a) => a
  | none => p

/-- `Path(p).parent` as a string: the part before the last `/`, `"/"` for
a top-level absolute path, `"."` when there is no separator. -/
def parentPath (p : List Char) : List Char :=
  match splitLast '/' p with
  | some ([], _) => ['/']
  | some (b, _) => b
  | none => ['.']

/-- `Path(d) / n` as a string. -/
def joinPath (d n : List Char) : List Char :=
  if d = ['/'] then '/' :: n else d ++ '/' :: n

/-- `Path(p).resolve()` for the unzip pipeline, whose inputs are taken to
be canonical absolute paths (symlink renaming is modelled only where a
claim depends on it, in the discovery engine's `FileEntry`). -/
def pyResolve (p : List Char) : List Char := p

/-- A file on disk as the unzip pipeline sees it: a gzip stream that
decompresses to some content, or one whose decompression raises
(missing or corrupt stream is modelled by absence or `corrupt`). -/
inductive GzFile where
  | valid (content : List Char)
  | corrupt
deriving DecidableEq, Repr

/-- Filesystem state threaded through the unzip pipeline: files by path,
plus the set of directories created with `mkdir`. -/
structure UnzipFS where
  entries : List (List Char × GzFile)
  dirs : List (List Char)
deriving DecidableEq, Repr

/-- File lookup by path. -/
def UnzipFS.lookup (fs : UnzipFS) (p : List Char) : Option GzFile :=
  (fs.entries.find? fun e => e.1 == p).map (·.2)

/-- `Path(p).exists()`. -/
def UnzipFS.pathExists (fs : UnzipFS) (p : List Char) : Bool :=
  (fs.lookup p).isSome

/-- `open(p, "wb")` followed by writing `content`. -/
def UnzipFS.write (fs : UnzipFS) (p content : List Char) : UnzipFS :=
  { fs with entries := (p, .valid content) :: fs.entries }

/-- `Path(d).mkdir(parents=True, exist_ok=True)`. -/
def UnzipFS.mkdir (fs : UnzipFS) (d : List Char) : UnzipFS :=
  { fs with dirs := d :: fs.dirs }

/-- `gzip.open(p, "rb")` plus `shutil.copyfileobj`: the decompressed
bytes, or `none` when the read raises (no such file, corrupt stream). -/
def gzipRead (fs : UnzipFS) (p : List Char) : Option (List Char) :=
  match fs.lookup p with
  | some (.valid c) => some c
  | _ => none

/-- `unzip_file` from `unzip_files.py` lines 14-37. The whole body runs
under `try/except Exception`, so the function is total: it returns the
extracted destination on success and `None` both on the skip path
(destination exists, `overwrite` false) and when the decompression copy
raises; the caught exception is only logged. -/
def unzip_file (fs : UnzipFS) (file_info : List Char × List Char × Bool) :
    Option (List Char) × UnzipFS :=
  let (source_path, dest_path, overwrite) := file_info
  if fs.pathExists dest_path && !overwrite then (none, fs)
  else
    match gzipRead fs source_path with
    | none => (none, fs)
    | some content => (some dest_path, fs.write dest_path content)

/-- The worker-pool fan-out of `unzip_xml_gz_files` (lines 94-106):
`pool.imap_unordered(unzip_file, file_paths)` with `filter(None, ...)` —
every item is processed independently and the `None` results are
dropped. Items write to distinct destinations per the design contract,
so the pool is modelled as a sequential fold; the unspecified completion
order is modelled as input order (no claim depends on result order). -/
def runItems (fs : UnzipFS) :
    List (List Char × List Char × Bool) → List (List Char) × UnzipFS
  | [] => ([], fs)
  | it :: rest =>
    let r := unzip_file fs it
    let rs := runItems r.2 rest
    (match r.1 with | some d => d :: rs.1 | none => rs.1, rs.2)

/-- One element of the heterogeneous `source_directory` list accepted by
`unzip_xml_gz_files`: a bare path string or a complete work-item triple. -/
inductive UnzipItem where
  | str (path : List Char)
  | triple (source dest : List Char) (overwrite : Bool)
deriving DecidableEq, Repr

/-- `isinstance(item, tuple) and len(item) == 3`. -/
def UnzipItem.isTriple : UnzipItem → Bool
  | .triple .. => true
  | .str _ => false

/-- `isinstance(item, str)`. -/
def UnzipItem.isStr : UnzipItem → Bool
  | .str _ => true
  | .triple .. => false

/-- The tail of `unzip_xml_gz_files` shared by both input shapes (lines
92-106): `destination_path = Path(file_paths[0][1]).parent` — an
`IndexError` on an empty work-item list — then the pool fan-out, then
`(str(destination_path), extracted_files)`. -/
def unzip_tail (fs : UnzipFS) (file_paths : List (List Char × List Char × Bool)) :
    Except PyExn ((List Char × List (List Char)) × UnzipFS) :=
  match file_paths with
  | [] => .error .indexError
  | (_, d, _) :: _ =>
    let destination_path := parentPath d
    let out := runItems fs file_paths
    .ok ((destination_path, out.1), out.2)

/-- `unzip_xml_gz_files` from `unzip_files.py` lines 40-108: if every
entry is a triple use them as-is; else if every entry is a bare path,
derive the shared destination directory (explicit argument, else
`<parent of first source>/unzipped`), create it, and build the triples
with `Path(file).stem` destinations and the uniform batch `overwrite`
flag; else raise `ValueError`. Either way continue with `unzip_tail`. -/
def unzip_xml_gz_files (fs : UnzipFS) (source_directory : List UnzipItem)
    (destination_directory : Option (List Char)) (overwrite : Bool) :
    Except PyExn ((List Char × List (List Char)) × UnzipFS) :=
  if source_directory.all (·.isTriple) then
    unzip_tail fs (source_directory.map fun it =>
      match it with
      | .triple s d ow => (s, d, ow)
      | .str p => (p, p, false))
  else if source_directory.all (·.isStr) then
    match source_directory.map (fun it =>
      match it with
      | .str p => p
      | .triple s _ _ => s) with
    | [] => .error .indexError
    | first :: rest =>
      let first_file := pyResolve first
      let default_dest_dir := joinPath (parentPath first_file) "unzipped".toList
      let destination_path :=
        match destination_directory with
        | some dd => pyResolve dd
        | none => default_dest_dir
      let fs₁ := fs.mkdir destination_path
      unzip_tail fs₁ ((first :: rest).map fun file =>
        (pyResolve file, joinPath destination_path (pyStem (basename file)), overwrite))
  else .error .valueError

theorem splitLast_eq_append {sep : Char} :
    ∀ {s b a : List Char}, splitLast sep s = some (b, a) → s = b ++ sep :: a := by
  intro s
  induction s with
  | nil => intro b a h; simp [splitLast] at h
  | cons c cs ih =>
    intro b a h
    simp only [splitLast] at h
    cases hrec : splitLast sep cs with
    | some p =>
      obtain ⟨b', a'⟩ := p
      rw [hrec] at h
      simp only [Option.some.injEq, Prod.mk.injEq] at h
      obtain ⟨rfl, rfl⟩ := h
      simpa using ih hrec
    | none =>
      rw [hrec] at h
      by_cases hc : c = sep
      · subst hc
        simp only [if_pos rfl, if_true, eq_self_iff_true, Option.some.injEq,
          Prod.mk.injEq] at h
        obtain ⟨rfl, rfl⟩ := h
        simp
      · simp [hc] at h

theorem removesuffix_append (x y : List Char) (hy : y ≠ []) :
    removesuffix (x ++ y) y = x := by
  unfold removesuffix
  have hsuf : y.isSuffixOf (x ++ y) := by
    rw [List.isSuffixOf_iff_suffix]
    exact List.suffix_append x y
  rw [if_pos ⟨hy, hsuf⟩]
  have hlen : (x ++ y).length - y.length = x.length := by
    simp [List.length_append]
  rw [hlen]
  exact List.take_left x y

theorem pyStem_eq_removesuffix (name : List Char) :
    pyStem name = removesuffix name (pySuffix name) := by
  unfold pyStem pySuffix pySplitExt
  cases hsplit : splitLast '.' name with
  | some p =>
    obtain ⟨b, a⟩ := p
    by_cases hba : b ≠ [] ∧ a ≠ []
    · simp only [if_pos hba]
      have hname : name = b ++ '.' :: a := splitLast_eq_append hsplit
      rw [hname]
      exact (removesuffix_append b ('.' :: a) (by simp)).symm
    · simp only [if_neg hba]
      simp [removesuffix]
  | none =>
    simp [removesuffix]

/-- C8 (amended): the two disjuncts of `_prefix_suffix_ok`'s suffix check —
`p.stem.endswith(suffix)` and `p.name.removesuffix(p.suffix).endswith(suffix)`
— coincide on every filename and suffix, because CPython's `Path.stem` is
exactly `name.removesuffix(Path.suffix)`; neither disjunct can pass while
the other fails, so the OR of the two is just the stem check. -/
theorem suffix_checks_agree (name sfx : List Char) :
    stemCheck name sfx = baseNoExtCheck name sfx ∧
    (stemCheck name sfx || baseNoExtCheck name sfx) = stemCheck name sfx := by
  have h : stemCheck name sfx = baseNoExtCheck name sfx := by
    unfold stemCheck baseNoExtCheck
    rw [pyStem_eq_removesuffix]
  refine ⟨h, ?_⟩
  rw [← h, Bool.or_self]

/-- C8 (counterexample to the claim as stated): there is NO filename and
suffix — multi-dot or otherwise — on which the two suffix checks of
`_prefix_suffix_ok` disagree: the claimed existence of a disagreeing
pair is equivalent to `False`. -/
theorem suffix_checks_disagree_impossible :
    (∃ name sfx : List Char, stemCheck name sfx ≠ baseNoExtCheck name sfx) ↔ False :=
  iff_false_intro fun ⟨name, sfx, hne⟩ => hne (suffix_checks_agree name sfx).1

theorem tryPatterns_cons (m : List Char → Option Nat)
    (ms : List (List Char → Option Nat)) (name : List Char) :
    tryPatterns (m :: ms) name =
      (inRangeFilter (reSearch m name)).orElse fun _ => tryPatterns ms name := by
  simp only [tryPatterns, inRangeFilter]
  cases reSearch m name with
  | none => simp [Option.orElse]
  | some y =>
    by_cases hy : yearInRange y <;> simp [hy, Option.orElse, Option.bind]

/-- C4: `_extract_year_from_filename` tries the three patterns in strict
priority order — `pubmed_sorted_` + four digits, then `pubmed_` + four
digits, then a bare `19xx`/`20xx` run — keeping for each pattern the
leftmost match's captured number only when it lies in `[1900, 2099]` and
otherwise falling through to the next pattern, with `none` when nothing
in-range matches; concretely, a name containing both `pubmed_sorted_1998`
and a stray `2020` resolves to 1998, an out-of-range `pubmed_sorted_0005`
capture falls through to the bare-year pattern, and a year-free name
yields `none`. -/
theorem extract_year_priority :
    (∀ name : List Char,
      _extract_year_from_filename name =
        ((inRangeFilter (reSearch matchPubmedSorted name)).orElse fun _ =>
          ((inRangeFilter (reSearch matchPubmed name)).orElse fun _ =>
            inRangeFilter (reSearch matchBareYear name)))) ∧
    _extract_year_from_filename "pubmed_sorted_1998_and_2020.xml".toList = some 1998 ∧
    _extract_year_from_filename "pubmed_sorted_0005_2020".toList = some 2020 ∧
    _extract_year_from_filename "notes.txt".toList = none := by
  refine ⟨fun name => ?_, by decide, by decide, by decide⟩
  unfold _extract_year_from_filename
  rw [tryPatterns_cons, tryPatterns_cons, tryPatterns_cons]
  simp only [tryPatterns]
  cases inRangeFilter (reSearch matchBareYear name) <;> simp [Option.orElse]

/-- C10: calling `unzip_xml_gz_files` with the empty list raises
`IndexError` — the empty list vacuously satisfies the all-triples check,
so the work-item list is empty and `file_paths[0][1]` fails — rather
than returning an empty success or raising the invalid-input-shape
`ValueError`/`TypeError`. -/
theorem unzip_empty_list_index_error :
    ∀ (fs : UnzipFS) (dd : Option (List Char)) (ow : Bool),
      unzip_xml_gz_files fs [] dd ow = .error .indexError ∧
      unzip_xml_gz_files fs [] dd ow ≠ .error .valueError ∧
      unzip_xml_gz_files fs [] dd ow ≠ .error .typeError ∧
      ∀ r, unzip_xml_gz_files fs [] dd ow ≠ .ok r := by
  intro fs dd ow
  have h : unzip_xml_gz_files fs [] dd ow = .error .indexError := rfl
  refine ⟨h, by rw [h]; simp, by rw [h]; simp, fun r => by rw [h]; simp⟩

/-- C9 (counterexample to the claim as stated): on a directory holding
one file `b.md`, `find_files` with the single pattern string `"*.txt"`
as `include_patterns` does NOT return the same result as with the
one-element list `["*.txt"]` — the bare string is iterated character by
character inside `_patterns_ok`, its `*` character matches every name,
so `b.md` is included; the one-element list excludes it. (The module
environment is taken with `vectorsage_data.utils` importable so that
result construction succeeds at all; the discovery file lists differ
likewise.) -/
theorem single_pattern_string_differs_cex :
    (find_files ⟨true, true, [⟨"b.md".toList, "b.md".toList, some 10, some 10⟩],
          [⟨"b.md".toList, "b.md".toList, some 10, some 10⟩]⟩ ⟨true⟩ "d".toList
        { include_patterns := .str "*.txt".toList }).1 ≠
      (find_files ⟨true, true, [⟨"b.md".toList, "b.md".toList, some 10, some 10⟩],
          [⟨"b.md".toList, "b.md".toList, some 10, some 10⟩]⟩ ⟨true⟩ "d".toList
        { include_patterns := .list ["*.txt".toList] }).1 ∧
    find_files_files ⟨true, true, [⟨"b.md".toList, "b.md".toList, some 10, some 10⟩],
        [⟨"b.md".toList, "b.md".toList, some 10, some 10⟩]⟩
        { include_patterns := .str "*.txt".toList } ≠
      find_files_files ⟨true, true, [⟨"b.md".toList, "b.md".toList, some 10, some 10⟩],
          [⟨"b.md".toList, "b.md".toList, some 10, some 10⟩]⟩
        { include_patterns := .list ["*.txt".toList] } := by
  constructor
  · decide
  · decide

/-- C9 (amended): the single-value-to-one-element-list normalization
lives in `FindFilesArgs.__post_init__`, not in `find_files` itself:
`post_init_patterns` turns a bare pattern string `s` into the list
`[s]`, and `find_files` applied to the so-normalized argument agrees
exactly with `find_files` applied to the one-element list — whereas
`find_files` applied directly to the bare string can differ (see the
counterexample). -/
theorem post_init_normalizes_single_pattern :
    ∀ (s : List Char) (a : FindArgs) (fs : PyFS) (env : PyModules) (dir : List Char),
      post_init_patterns (.str s) = .list [s] ∧
      find_files fs env dir { a with include_patterns := post_init_patterns (.str s) } =
        find_files fs env dir { a with include_patterns := .list [s] } ∧
      find_files fs env dir { a with exclude_patterns := post_init_patterns (.str s) } =
        find_files fs env dir { a with exclude_patterns := .list [s] } :=
  fun _ _ _ _ _ => ⟨rfl, rfl, rfl⟩

/-- C5: `unzip_file` is total (its body runs inside `try/except
Exception`) and never propagates a failure: when the destination exists
and `overwrite` is false it returns `None` leaving the filesystem
unchanged (a logged skip, not an error); when the decompression read
fails (missing or corrupt source) the exception is caught and it
returns `None`; and in a batch with one valid source and one
nonexistent source the run completes with exactly the valid item in the
extracted list while the destination directory is still reported. -/
theorem unzip_file_never_raises :
    (∀ (fs : UnzipFS) (s d : List Char) (ow : Bool),
      fs.pathExists d = true → ow = false →
      unzip_file fs (s, d, ow) = (none, fs)) ∧
    (∀ (fs : UnzipFS) (s d : List Char) (ow : Bool),
      (fs.pathExists d && !ow) = false → gzipRead fs s = none →
      unzip_file fs (s, d, ow) = (none, fs)) ∧
    (unzip_xml_gz_files ⟨[("src/ok.xml.gz".toList, .valid "hi".toList)], []⟩
        [.str "src/ok.xml.gz".toList, .str "src/missing.xml.gz".toList] none false).map
        (fun r => r.1) =
      .ok ("src/unzipped".toList, ["src/unzipped/ok.xml".toList]) := by
  refine ⟨?_, ?_, by decide⟩
  · intro fs s d ow hex how
    simp [unzip_file, hex, how]
  · intro fs s d ow hskip hgz
    simp [unzip_file, hskip, hgz]

/-- C5 witness: the skip branch and the caught-failure branch of
`unzip_file` at concrete inputs. -/
theorem unzip_file_never_raises_witness :
    unzip_file ⟨[("d".toList, .valid [])], []⟩ ("s".toList, "d".toList, false) =
      (none, ⟨[("d".toList, .valid [])], []⟩) ∧
    unzip_file ⟨[], []⟩ ("s".toList, "d".toList, false) = (none, ⟨[], []⟩) :=
  ⟨unzip_file_never_raises.1 ⟨[("d".toList, .valid [])], []⟩ "s".toList "d".toList false
      (by decide) rfl,
    unzip_file_never_raises.2.1 ⟨[], []⟩ "s".toList "d".toList false (by decide) (by decide)⟩

/-- C1 (code bug): the year-grouping IS wired to run eagerly at
`FindFilesResult` construction, but `group_by_year` begins with
`from vectorsage_data.utils import sort_files_by_year` and no module
`vectorsage_data` exists anywhere in the repository (the function
actually lives in `bioxai.utilities.files_finder`), so in the shipped
module environment every successful filter run of `find_files` dies
with `ModuleNotFoundError` while constructing its result; were
that module resolvable, the construction would indeed store
`sort_files_by_year(files, sort_by="name")` computed from the final
file list, as the claim states. -/
theorem find_files_import_bug :
    (∀ (fs : PyFS) (dir : List Char) (a : FindArgs),
      fs.rootExists = true → fs.rootIsDir = true →
      (a.sort_by = "name" ∨ a.sort_by = "mtime" ∨ a.sort_by = "size") →
      (find_files fs repoModules dir a).1 = .error .moduleNotFoundError) ∧
    (∀ (env : PyModules) (sd : List Char) (args : FindArgs) (files : List FileEntry)
        (tm : Nat) (rcv : Bool) (notes : Option (List Char)) (r : FindFilesResult),
      env.hasVectorsageDataUtils = true →
      mkFindFilesResult env sd args files tm rcv notes = .ok r →
      r.files = files ∧ sort_files_by_year files "name" = .ok r.db_file_paths) := by
  constructor
  · intro fs dir a hex hdir hsort
    simp [find_files, findFilesArgsPostInit, mkFindFilesResult, repoModules, hex, hdir, hsort]
  · intro env sd args files tm rcv notes r henv hmk
    have hsy : sort_files_by_year files "name" =
        .ok ((yearsOf files).map fun y =>
          (y, pySort (_build_sort_key "name") false
            (files.filter fun f => _extract_year_from_filename f.name == some y))) := by
      simp [sort_files_by_year]
    unfold mkFindFilesResult at hmk
    rw [henv] at hmk
    simp only [if_pos] at hmk
    rw [hsy] at hmk
    simp only [Except.ok.injEq] at hmk
    subst hmk
    exact ⟨rfl, by rw [hsy]⟩

/-- C1 witness: on an existing empty directory with default arguments,
`find_files` in the shipped module environment raises
`ModuleNotFoundError`; and a construction performed with the import
resolvable stores exactly the `sort_files_by_year` grouping. -/
theorem find_files_import_bug_witness :
    (find_files ⟨true, true, [], []⟩ repoModules "d".toList {}).1 =
      .error .moduleNotFoundError ∧
    sort_files_by_year [] "name" =
      .ok (FindFilesResult.db_file_paths ⟨"d".toList, {}, [], 0, false, none, []⟩) :=
  ⟨find_files_import_bug.1 ⟨true, true, [], []⟩ "d".toList {} rfl rfl (Or.inl rfl),
    (find_files_import_bug.2 ⟨true⟩ "d".toList {} [] 0 false none
      ⟨"d".toList, {}, [], 0, false, none, []⟩ rfl (by decide)).2⟩

/-- C3 (counterexample to the claim as stated): on a directory holding
one file, `find_files` with `sort_by="bogus"` does raise `ValueError`,
but only AFTER the candidate enumeration of the root has occurred (the
second component of the model records that `base.glob` ran):
`_validate_sort_by` is called on line 184, after the enumeration and
filtering of lines 166-181. -/
theorem invalid_sort_by_after_enumeration_cex :
    find_files ⟨true, true, [⟨"a.txt".toList, "a.txt".toList, some 10, some 10⟩],
        [⟨"a.txt".toList, "a.txt".toList, some 10, some 10⟩]⟩ repoModules "d".toList
        { sort_by := "bogus" } = (.error .valueError, true) := by decide

/-- C3 (amended): an invalid `sort_by` always raises `ValueError`
synchronously — before sorting, truncation and result construction —
but after the filesystem enumeration and filtering of the root have
already run, for every filesystem whose root exists and is a
directory. -/
theorem invalid_sort_by_raises_after_enumeration :
    ∀ (fs : PyFS) (env : PyModules) (dir : List Char) (a : FindArgs),
      fs.rootExists = true → fs.rootIsDir = true →
      a.sort_by ≠ "name" → a.sort_by ≠ "mtime" → a.sort_by ≠ "size" →
      find_files fs env dir a = (.error .valueError, true) := by
  intro fs env dir a hex hdir h1 h2 h3
  simp [find_files, hex, hdir, h1, h2, h3]

/-- C3 witness: the amended statement at `sort_by = "bogus"` on an
existing empty directory. -/
theorem invalid_sort_by_raises_after_enumeration_witness :
    find_files ⟨true, true, [], []⟩ repoModules "d".toList { sort_by := "bogus" } =
      (.error .valueError, true) :=
  invalid_sort_by_raises_after_enumeration ⟨true, true, [], []⟩ repoModules "d".toList
    { sort_by := "bogus" } rfl rfl (by decide) (by decide) (by decide)

theorem mem_pySort {α : Type} (key : α → SortKey) (rev : Bool) (l : List α) (x : α) :
    x ∈ pySort key rev l ↔ x ∈ l := by
  unfold pySort
  split
  · rw [List.mem_reverse]
    exact ((List.perm_insertionSort _ l.reverse).mem_iff).trans List.mem_reverse
  · exact (List.perm_insertionSort _ l).mem_iff

theorem mem_find_files_files (fs : PyFS) (a : FindArgs) (x : FileEntry) :
    x ∈ find_files_files fs a → x ∈ find_files_filtered fs a := by
  unfold find_files_files find_files_sorted
  intro hx
  split at hx
  · split at hx
    · exact (mem_pySort _ _ _ _).mp (List.take_subset _ _ hx)
    · exact (mem_pySort _ _ _ _).mp hx
  · exact (mem_pySort _ _ _ _).mp hx

/-- C7 (counterexample to the claim as stated): filtering happens BEFORE
canonical resolution, so when an enumerated path is a symlink whose
resolved basename differs (`a.txt` resolving to `b.bin`), the file list
carried by the `find_files` result (construction performed with the
grouping import resolvable) contains a file that does NOT satisfy the
active `file_format="txt"` predicate, and re-filtering that list with
the same arguments yields a different (empty) set. -/
theorem refilter_not_idempotent_cex :
    ((find_files ⟨true, true, [⟨"a.txt".toList, "b.bin".toList, some 10, some 10⟩],
          [⟨"a.txt".toList, "b.bin".toList, some 10, some 10⟩]⟩ ⟨true⟩ "d".toList
        { file_format := some "txt".toList }).1.map
        fun r => (r.files, r.files.filter fun p =>
          _file_passes p { file_format := some "txt".toList })) =
      .ok ([⟨"b.bin".toList, "b.bin".toList, some 10, some 10⟩], []) := by decide

/-- C7 (amended): provided canonical resolution preserves every
candidate's basename (no symlink points at a differently-named target),
every file in the discovery output satisfies every active filter
predicate and re-filtering the output with the same arguments is the
identity (filtering is idempotent). -/
theorem refilter_idempotent_of_resolve_preserving :
    ∀ (fs : PyFS) (a : FindArgs),
      (∀ p ∈ fs.flatEntries, p.resolvedName = p.name) →
      (∀ p ∈ fs.recEntries, p.resolvedName = p.name) →
      (∀ p ∈ find_files_files fs a, _file_passes p a = true) ∧
      (find_files_files fs a).filter (fun p => _file_passes p a) = find_files_files fs a := by
  intro fs a hflat hrec
  have hcand : ∀ p ∈ find_files_candidates fs a.recursive, p.resolvedName = p.name := by
    intro p hp
    unfold find_files_candidates at hp
    split at hp
    · exact hrec p hp
    · exact hflat p hp
  have hres : ∀ p ∈ find_files_candidates fs a.recursive, resolveEntry p = p := by
    intro p hp
    have h := hcand p hp
    cases p
    simp_all [resolveEntry]
  have hpass : ∀ q ∈ find_files_filtered fs a, _file_passes q a = true := by
    intro q hq
    unfold find_files_filtered at hq
    rw [List.mem_map] at hq
    obtain ⟨p, hpmem, hpq⟩ := hq
    obtain ⟨hpc, hpp⟩ := List.mem_filter.mp hpmem
    rw [← hpq, hres p hpc]
    exact hpp
  have h1 : ∀ p ∈ find_files_files fs a, _file_passes p a = true := fun p hp =>
    hpass p (mem_find_files_files fs a p hp)
  exact ⟨h1, List.filter_eq_self.mpr h1⟩

/-- C7 witness: on a symlink-free directory holding `a.txt`, re-filtering
the discovery output with the same (default) arguments returns it
unchanged. -/
theorem refilter_idempotent_witness :
    (find_files_files ⟨true, true, [⟨"a.txt".toList, "a.txt".toList, some 10, some 10⟩],
        [⟨"a.txt".toList, "a.txt".toList, some 10, some 10⟩]⟩ {}).filter
        (fun p => _file_passes p {}) =
      find_files_files ⟨true, true, [⟨"a.txt".toList, "a.txt".toList, some 10, some 10⟩],
        [⟨"a.txt".toList, "a.txt".toList, some 10, some 10⟩]⟩ {} :=
  (refilter_idempotent_of_resolve_preserving _ {} (by decide) (by decide)).2

theorem build_key_shape (m : String) (hm : m = "mtime" ∨ m = "size") (p : FileEntry) :
    _build_sort_key m p = .inf ∨ ∃ n, _build_sort_key m p = .num n := by
  rcases hm with rfl | rfl
  · unfold _build_sort_key
    rw [if_neg (by decide), if_pos rfl]
    cases p.mtime with
    | none => exact Or.inl rfl
    | some t => exact Or.inr ⟨t, rfl⟩
  · unfold _build_sort_key
    rw [if_neg (by decide), if_neg (by decide)]
    cases p.size with
    | none => exact Or.inl rfl
    | some s => exact Or.inr ⟨s, rfl⟩

theorem inf_suffix_sorted (m : String) (hm : m = "mtime" ∨ m = "size") (l : List FileEntry)
    (i j : Nat)
    (hi : i < (l.insertionSort
      (fun a b => keyLE (_build_sort_key m a) (_build_sort_key m b) = true)).length)
    (hj : j < (l.insertionSort
      (fun a b => keyLE (_build_sort_key m a) (_build_sort_key m b) = true)).length)
    (hij : i ≤ j)
    (hinf : _build_sort_key m ((l.insertionSort
      (fun a b => keyLE (_build_sort_key m a) (_build_sort_key m b) = true))[i]) = .inf) :
    _build_sort_key m ((l.insertionSort
      (fun a b => keyLE (_build_sort_key m a) (_build_sort_key m b) = true))[j]) = .inf := by
  have hshape := build_key_shape m hm
  have htot : ∀ a b : FileEntry,
      keyLE (_build_sort_key m a) (_build_sort_key m b) = true ∨
      keyLE (_build_sort_key m b) (_build_sort_key m a) = true := by
    intro a b
    rcases hshape a with ha | ⟨na, ha⟩ <;> rcases hshape b with hb | ⟨nb, hb⟩ <;>
      simp_all [keyLE]
    omega
  have htrans : ∀ a b c : FileEntry,
      keyLE (_build_sort_key m a) (_build_sort_key m b) = true →
      keyLE (_build_sort_key m b) (_build_sort_key m c) = true →
      keyLE (_build_sort_key m a) (_build_sort_key m c) = true := by
    intro a b c hab hbc
    rcases hshape a with ha | ⟨na, ha⟩ <;> rcases hshape b with hb | ⟨nb, hb⟩ <;>
      rcases hshape c with hc | ⟨nc, hc⟩ <;> simp_all [keyLE]
    omega
  have hsorted : List.Sorted
      (fun a b => keyLE (_build_sort_key m a) (_build_sort_key m b) = true)
      (l.insertionSort
        (fun a b => keyLE (_build_sort_key m a) (_build_sort_key m b) = true)) := by
    haveI : IsTotal FileEntry
        (fun a b => keyLE (_build_sort_key m a) (_build_sort_key m b) = true) := ⟨htot⟩
    haveI : IsTrans FileEntry
        (fun a b => keyLE (_build_sort_key m a) (_build_sort_key m b) = true) := ⟨htrans⟩
    exact List.sorted_insertionSort _ l
  rcases Nat.lt_or_ge i j with hlt | hge
  · have hrel := (List.pairwise_iff_getElem.mp hsorted) i j hi hj hlt
    rw [hinf] at hrel
    rcases hshape ((l.insertionSort
        (fun a b => keyLE (_build_sort_key m a) (_build_sort_key m b) = true))[j]) with
      h | ⟨n, h⟩
    · exact h
    · rw [h] at hrel
      simp [keyLE] at hrel
  · have heq : i = j := le_antisymm hij hge
    subst heq
    exact hinf

/-- C2 (counterexample to the claim as stated): an entry whose `stat`
fails does receive the `float('inf')` key, but `find_files` passes
`reverse` straight into `list.sort`, so with `reverse=True` the
infinity-keyed entry sorts FIRST, not last — here under both the `size`
and the `mtime` key the unreadable file `b` heads the reversed output. -/
theorem unreadable_sorts_first_when_reversed_cex :
    _build_sort_key "size" ⟨"b".toList, "b".toList, none, none⟩ = .inf ∧
    pySort (_build_sort_key "size") true
        [⟨"a".toList, "a".toList, some 5, some 5⟩, ⟨"b".toList, "b".toList, none, none⟩] =
      [⟨"b".toList, "b".toList, none, none⟩, ⟨"a".toList, "a".toList, some 5, some 5⟩] ∧
    pySort (_build_sort_key "mtime") true
        [⟨"a".toList, "a".toList, some 5, some 5⟩, ⟨"b".toList, "b".toList, none, none⟩] =
      [⟨"b".toList, "b".toList, none, none⟩, ⟨"a".toList, "a".toList, some 5, some 5⟩] := by
  refine ⟨by decide, by decide, by decide⟩

/-- C2 (amended): under the `mtime`/`size` keys an entry whose metadata
read fails is keyed `float('inf')`; with `reverse=False` such entries
sort last (every position at or after an infinity-keyed entry is
infinity-keyed), but with `reverse=True` the guarantee flips and they
sort first (every position at or before one is infinity-keyed). -/
theorem unreadable_metadata_sort_position (m : String) (hm : m = "mtime" ∨ m = "size") :
    (∀ p : FileEntry, (if m = "mtime" then p.mtime else p.size) = none →
      _build_sort_key m p = .inf) ∧
    (∀ (l : List FileEntry) (i j : Nat)
      (hi : i < (pySort (_build_sort_key m) false l).length)
      (hj : j < (pySort (_build_sort_key m) false l).length),
      i ≤ j → _build_sort_key m ((pySort (_build_sort_key m) false l)[i]) = .inf →
      _build_sort_key m ((pySort (_build_sort_key m) false l)[j]) = .inf) ∧
    (∀ (l : List FileEntry) (i j : Nat)
      (hi : i < (pySort (_build_sort_key m) true l).length)
      (hj : j < (pySort (_build_sort_key m) true l).length),
      i ≤ j → _build_sort_key m ((pySort (_build_sort_key m) true l)[j]) = .inf →
      _build_sort_key m ((pySort (_build_sort_key m) true l)[i]) = .inf) := by
  refine ⟨?_, ?_, ?_⟩
  · intro p hp
    rcases hm with rfl | rfl
    · rw [if_pos rfl] at hp
      unfold _build_sort_key
      rw [if_neg (by decide), if_pos rfl, hp]
    · rw [if_neg (by decide)] at hp
      unfold _build_sort_key
      rw [if_neg (by decide), if_neg (by decide), hp]
  · intro l i j hi hj hij hinf
    exact inf_suffix_sorted m hm l i j hi hj hij hinf
  · intro l i j hi hj hij hinf
    have h1 : j < (l.reverse.insertionSort
        (fun a b => keyLE (_build_sort_key m a) (_build_sort_key m b) = true)).length := by
      have := hj
      simpa [pySort] using this
    have h2 : i < (l.reverse.insertionSort
        (fun a b => keyLE (_build_sort_key m a) (_build_sort_key m b) = true)).length := by
      have := hi
      simpa [pySort] using this
    have hj' : j < ((l.reverse.insertionSort
        (fun a b => keyLE (_build_sort_key m a) (_build_sort_key m b) = true)).reverse).length := by
      simpa using h1
    have hi' : i < ((l.reverse.insertionSort
        (fun a b => keyLE (_build_sort_key m a) (_build_sort_key m b) = true)).reverse).length := by
      simpa using h2
    have hinf' : _build_sort_key m (((l.reverse.insertionSort
        (fun a b => keyLE (_build_sort_key m a) (_build_sort_key m b) = true)).reverse)[j]) =
        .inf := hinf
    rw [List.getElem_reverse] at hinf'
    show _build_sort_key m (((l.reverse.insertionSort
        (fun a b => keyLE (_build_sort_key m a) (_build_sort_key m b) = true)).reverse)[i]) = .inf
    rw [List.getElem_reverse]
    exact inf_suffix_sorted m hm l.reverse _ _ (by omega) (by omega) (by omega) hinf'

/-- C2 witness: under the `size` key, the entry with a failing stat gets
the infinity key, and in the ascending (`reverse=False`) sort of a
two-entry list the final position is infinity-keyed. -/
theorem unreadable_metadata_sort_position_witness :
    _build_sort_key "size" ⟨"b".toList, "b".toList, none, none⟩ = .inf ∧
    _build_sort_key "size"
        ((pySort (_build_sort_key "size") false
          [⟨"b".toList, "b".toList, none, none⟩,
            ⟨"a".toList, "a".toList, some 5, some 5⟩]).get ⟨1, by decide⟩) = .inf :=
  ⟨(unreadable_metadata_sort_position "size" (Or.inr rfl)).1
      ⟨"b".toList, "b".toList, none, none⟩ rfl,
    (unreadable_metadata_sort_position "size" (Or.inr rfl)).2.1
      [⟨"b".toList, "b".toList, none, none⟩, ⟨"a".toList, "a".toList, some 5, some 5⟩]
      1 1 (by decide) (by decide) (Nat.le_refl 1) (by decide)⟩

theorem splitLast_none_not_mem {sep : Char} :
    ∀ {s : List Char}, splitLast sep s = none → sep ∉ s := by
  intro s
  induction s with
  | nil => intro _ h; simp at h
  | cons c cs ih =>
    intro h
    simp only [splitLast] at h
    cases hrec : splitLast sep cs with
    | some p => rw [hrec] at h; simp at h
    | none =>
      rw [hrec] at h
      by_cases hc : c = sep
      · simp [hc] at h
      · intro hmem
        rcases List.mem_cons.mp hmem with h1 | h1
        · exact hc h1.symm
        · exact ih hrec h1

theorem splitLast_eq_none_of_not_mem {sep : Char} :
    ∀ {s : List Char}, sep ∉ s → splitLast sep s = none := by
  intro s
  induction s with
  | nil => intro _; rfl
  | cons c cs ih =>
    intro h
    have hc : c ≠ sep := fun hc => h (hc ▸ List.mem_cons_self c cs)
    have hcs : sep ∉ cs := fun hm => h (List.mem_cons_of_mem c hm)
    simp only [splitLast, ih hcs]
    simp [hc]

theorem splitLast_not_mem_after {sep : Char} :
    ∀ {s b a : List Char}, splitLast sep s = some (b, a) → sep ∉ a := by
  intro s
  induction s with
  | nil => intro b a h; simp [splitLast] at h
  | cons c cs ih =>
    intro b a h
    simp only [splitLast] at h
    cases hrec : splitLast sep cs with
    | some p =>
      obtain ⟨b', a'⟩ := p
      rw [hrec] at h
      simp only [Option.some.injEq, Prod.mk.injEq] at h
      obtain ⟨rfl, rfl⟩ := h
      exact ih hrec
    | none =>
      rw [hrec] at h
      by_cases hc : c = sep
      · subst hc
        simp only [if_pos rfl, if_true, eq_self_iff_true, Option.some.injEq,
          Prod.mk.injEq] at h
        obtain ⟨rfl, rfl⟩ := h
        exact splitLast_none_not_mem hrec
      · simp [hc] at h

theorem splitLast_append_of_not_mem {sep : Char} (d n : List Char) (hn : sep ∉ n) :
    splitLast sep (d ++ sep :: n) = some (d, n) := by
  induction d with
  | nil =>
    simp only [List.nil_append, splitLast, splitLast_eq_none_of_not_mem hn]
    simp
  | cons c d' ih =>
    simp only [List.cons_append, splitLast, List.append_eq, ih]

theorem joinPath_ne_nil (d n : List Char) : joinPath d n ≠ [] := by
  unfold joinPath
  split
  · simp
  · simp

theorem parentPath_joinPath (d n : List Char) (hd : d ≠ []) (hn : '/' ∉ n) :
    parentPath (joinPath d n) = d := by
  by_cases hd1 : d = ['/']
  · subst hd1
    unfold joinPath parentPath
    rw [if_pos rfl]
    have h : splitLast '/' ('/' :: n) = some ([], n) := by
      have := splitLast_append_of_not_mem ([] : List Char) n hn
      simpa using this
    rw [h]
  · unfold joinPath parentPath
    rw [if_neg hd1, splitLast_append_of_not_mem d n hn]
    cases d with
    | nil => exact absurd rfl hd
    | cons c cs => rfl

theorem basename_not_slash (p : List Char) : '/' ∉ basename p := by
  unfold basename
  cases h : splitLast '/' p with
  | some q =>
    obtain ⟨b, a⟩ := q
    exact splitLast_not_mem_after h
  | none => exact splitLast_none_not_mem h

theorem mem_pyStem {n : List Char} {c : Char} (h : c ∈ pyStem n) : c ∈ n := by
  unfold pyStem pySplitExt at h
  split at h
  next b a hs =>
    split at h
    next hba =>
      rw [splitLast_eq_append hs]
      exact List.mem_append_left _ h
    next => exact h
  next => exact h

/-- The shared destination directory the bare-path branch of
`unzip_xml_gz_files` derives (lines 66-73): the explicit
`destination_directory` when given, else
`<parent of first source>/unzipped`. -/
def destDirOf (first : List Char) (dd : Option (List Char)) : List Char :=
  match dd with
  | some d => pyResolve d
  | none => joinPath (parentPath (pyResolve first)) "unzipped".toList

theorem destDirOf_ne_nil (first : List Char) (dd : Option (List Char))
    (hdd : ∀ d, dd = some d → d ≠ []) : destDirOf first dd ≠ [] := by
  unfold destDirOf
  cases dd with
  | some d => exact hdd d rfl
  | none => exact joinPath_ne_nil _ _

/-- C6: on a non-empty list of bare source paths, `unzip_xml_gz_files`
derives the shared destination directory (the explicit argument if
given — assumed a non-empty path string — else
`<parent of first source>/unzipped`), creates it, builds one work item
per source whose destination is that directory joined with the source's
basename stripped of its final (compressed-format) extension
(`Path(file).stem`), applies the batch `overwrite` flag uniformly to
every item, and reports that same directory in the result. -/
theorem unzip_bare_paths_normalization :
    ∀ (fs : UnzipFS) (first : List Char) (rest : List (List Char))
      (dd : Option (List Char)) (ow : Bool),
      (∀ d, dd = some d → d ≠ []) →
      unzip_xml_gz_files fs ((first :: rest).map .str) dd ow =
        unzip_tail (fs.mkdir (destDirOf first dd))
          ((first :: rest).map fun f =>
            (f, joinPath (destDirOf first dd) (pyStem (basename f)), ow)) ∧
      destDirOf first dd ∈ (fs.mkdir (destDirOf first dd)).dirs ∧
      (∀ it ∈ (first :: rest).map fun f =>
          (f, joinPath (destDirOf first dd) (pyStem (basename f)), ow), it.2.2 = ow) ∧
      (unzip_xml_gz_files fs ((first :: rest).map .str) dd ow).map (fun r => r.1.1) =
        .ok (destDirOf first dd) := by
  intro fs first rest dd ow hdd
  have hslash : '/' ∉ pyStem (basename first) := fun hc =>
    basename_not_slash first (mem_pyStem hc)
  have hne : destDirOf first dd ≠ [] := destDirOf_ne_nil first dd hdd
  have hbranch : unzip_xml_gz_files fs ((first :: rest).map .str) dd ow =
      unzip_tail (fs.mkdir (destDirOf first dd))
        ((first :: rest).map fun f =>
          (f, joinPath (destDirOf first dd) (pyStem (basename f)), ow)) := by
    unfold unzip_xml_gz_files
    rw [if_neg (by simp [UnzipItem.isTriple])]
    rw [if_pos (by simp [UnzipItem.isStr])]
    simp only [List.map_map]
    have hcomp : ((fun it => match it with
        | UnzipItem.str p => p
        | UnzipItem.triple s _ _ => s) ∘ UnzipItem.str) = id := rfl
    rw [hcomp, List.map_id]
    unfold destDirOf pyResolve
    cases dd with
    | some d => rfl
    | none => rfl
  refine ⟨hbranch, by simp [UnzipFS.mkdir], ?_, ?_⟩
  · intro it hit
    rw [List.mem_map] at hit
    obtain ⟨f, _, rfl⟩ := hit
    rfl
  · rw [hbranch]
    unfold unzip_tail
    simp only [List.map_cons]
    rw [parentPath_joinPath _ _ hne hslash]
    rfl

/-- C6 witness: a one-element bare-path batch for `a/x.xml.gz` with no
explicit destination reports directory `a/unzipped`, records its
creation, and derives the work item with the batch `overwrite` flag. -/
theorem unzip_bare_paths_normalization_witness :
    (unzip_xml_gz_files ⟨[], []⟩ [.str "a/x.xml.gz".toList] none true).map (fun r => r.1.1) =
      .ok "a/unzipped".toList ∧
    "a/unzipped".toList ∈ ((⟨[], []⟩ : UnzipFS).mkdir "a/unzipped".toList).dirs :=
  ⟨(unzip_bare_paths_normalization ⟨[], []⟩ "a/x.xml.gz".toList [] none true
      (fun _ hd => by cases hd)).2.2.2,
    (unzip_bare_paths_normalization ⟨[], []⟩ "a/x.xml.gz".toList [] none true
      (fun _ hd => by cases hd)).2.1⟩
